import Mathlib

/-!
Verification development for `ipv4_to_ipv6_lookup.py`.

The script reads candidate IPv4 addresses from an input file (skipping
blank lines and `#`-comments), resolves each candidate to an IPv6 address
via a reverse DNS lookup followed by a forward IPv6-family lookup, counts
processed/found under a lock, and writes the resolved addresses to an
output file, one per line.

Strings are modelled as `List Char` (`Str`), DNS as an oracle environment
whose calls may fail with the socket error family that the script catches
(`socket.herror`, `socket.gaierror`, `OSError`), and the lock-guarded
mutation of the shared counters/results as an atomic state-transition
function folded over the (nondeterministic) completion order of the tasks.
-/

abbrev Str := List Char

/-- Whitespace characters removed by Python `str.strip()` (ASCII subset). -/
def isPySpace (c : Char) : Bool :=
  c = ' ' || c = '\t' || c = '\n' || c = '\r' || c = '\x0b' || c = '\x0c'

/-- Model of Python `line.strip()`: drop leading and trailing whitespace. -/
def pyStrip (s : Str) : Str :=
  ((s.dropWhile isPySpace).reverse.dropWhile isPySpace).reverse

/-- Model of Python `line.startswith('#')` on a string. -/
def startsWithHash : Str → Bool
  | [] => false
  | c :: _ => c = '#'

/-- The filter condition of the loader loop: `if line and not line.startswith('#')`. -/
def keepLine (l : Str) : Bool :=
  !l.isEmpty && !startsWithHash l

/-- The input-loader loop of `process_ipv4_list` (source lines 61-66):
for each raw line, strip it and append it to the accumulator when it is
non-empty and does not start with `#`. -/
def load (lines : List Str) : List Str :=
  lines.foldl
    (fun acc rawLine =>
      let line := pyStrip rawLine
      if keepLine line then acc ++ [line] else acc)
    []

lemma load_foldl_eq (lines : List Str) (acc : List Str) :
    lines.foldl
      (fun acc rawLine =>
        let line := pyStrip rawLine
        if keepLine line then acc ++ [line] else acc)
      acc = acc ++ (lines.map pyStrip).filter keepLine := by
  induction lines generalizing acc with
  | nil => simp
  | cons a l ih =>
    simp only [List.foldl_cons, List.map_cons, List.filter_cons]
    by_cases h : keepLine (pyStrip a)
    · simp [h, ih, List.append_assoc]
    · simp [h, ih]

/-- The loader output is exactly the stripped lines that pass the filter,
in input order. -/
lemma load_eq_filter (lines : List Str) :
    load lines = (lines.map pyStrip).filter keepLine := by
  simpa using load_foldl_eq lines []

/-- C1: for every input file, the loader produces exactly the lines that,
after trimming leading/trailing whitespace, are non-empty and do not start
with `#`, in their original input order; every element of the candidate
list is non-blank and non-comment. -/
theorem c1_loader_exact (lines : List Str) :
    load lines = (lines.map pyStrip).filter keepLine ∧
    (load lines).all (fun l => !l.isEmpty && !startsWithHash l) = true := by
  refine ⟨load_eq_filter lines, ?_⟩
  rw [load_eq_filter]
  simp only [List.all_eq_true]
  intro l hl
  exact List.of_mem_filter (p := keepLine) hl

/-! ## DNS model and the resolver (`resolve_ipv4_to_ipv6`, source lines 14-46) -/

/-- The exception family caught by the resolver's `except` clause
(source line 42): `socket.herror`, `socket.gaierror`, `OSError`.
In Python 3 both socket error classes are subclasses of `OSError`, so all
socket-level resolution failures fall in this family. -/
inductive SockErr
  | herror
  | gaierror
  | oserror
deriving DecidableEq, Repr

/-- DNS oracle: the outcome of `socket.gethostbyaddr` (reverse PTR lookup,
hostname only) and of `socket.getaddrinfo(hostname, None, AF_INET6)`
(forward lookup, already projected to the address component `info[4][0]`
of each returned record). Each call either returns or raises a `SockErr`. -/
structure DnsEnv where
  reverse : Str → Except SockErr Str
  forward : Str → Except SockErr (List Str)

/-- The de-duplication loop of the resolver (source lines 32-36): walk the
address list, appending each address not already present in the
accumulator. -/
def dedupAux {α : Type} [DecidableEq α] (acc : List α) : List α → List α
  | [] => acc
  | a :: rest =>
    if a ∈ acc then dedupAux acc rest else dedupAux (acc ++ [a]) rest

/-- The resolver's de-duplication, started from the empty accumulator. -/
def dedup {α : Type} [DecidableEq α] (l : List α) : List α := dedupAux [] l

/-- The body of the resolver's `try` block (source lines 24-40): reverse
lookup, forward lookup, de-duplicate, return the first address when present
(`None` when the de-duplicated list is empty). A raised `SockErr` aborts
the block. -/
def resolveTry (env : DnsEnv) (ipv4_address : Str) : Except SockErr (Option Str) :=
  match env.reverse ipv4_address with
  | .error e => .error e
  | .ok hostname =>
    match env.forward hostname with
    | .error e => .error e
    | .ok addrs =>
      let ipv6_addresses := dedup addrs
      .ok ipv6_addresses.head?

/-- Model of `resolve_ipv4_to_ipv6` (source lines 14-46): the `try` block
with the `except (herror, gaierror, OSError): pass` clause collapsing every
caught failure to `None`. -/
def resolve_ipv4_to_ipv6 (env : DnsEnv) (ipv4_address : Str) : Option Str :=
  match resolveTry env ipv4_address with
  | .ok v => v
  | .error _ => none

/-- Specification-side de-duplication, written from the spec's words
("de-duplicate the resulting address list while preserving first-seen
order"): keep each element's first occurrence, dropping later duplicates. -/
def dedupFirstSeenSpec {α : Type} [DecidableEq α] : List α → List α
  | [] => []
  | a :: l => a :: (dedupFirstSeenSpec l).filter (fun x => x ≠ a)

lemma dedupAux_eq_filter {α : Type} [DecidableEq α] (l acc : List α) :
    dedupAux acc l = acc ++ (dedupFirstSeenSpec l).filter (fun x => decide (x ∉ acc)) := by
  induction l generalizing acc with
  | nil => simp [dedupAux, dedupFirstSeenSpec]
  | cons a l ih =>
    simp only [dedupAux, dedupFirstSeenSpec]
    by_cases h : a ∈ acc
    · rw [if_pos h, ih]
      congr 1
      simp only [List.filter_cons, decide_eq_true_eq]
      rw [if_neg (by simp [h])]
      rw [List.filter_filter]
      apply List.filter_congr
      intro x _
      by_cases hx : x ∈ acc
      · simp [hx]
      · have hxa : x ≠ a := fun he => hx (he ▸ h)
        simp [hx, hxa]
    · rw [if_neg h, ih]
      simp only [List.filter_cons, decide_eq_true_eq]
      rw [if_pos h, List.append_assoc]
      congr 1
      simp only [List.singleton_append, List.cons.injEq, true_and]
      rw [List.filter_filter]
      apply List.filter_congr
      intro x _
      by_cases hxa : x = a
      · simp [hxa, h]
      · by_cases hx : x ∈ acc
        · simp [hx, List.mem_append, hxa]
        · simp [hx, List.mem_append, hxa]

/-- The resolver's accumulator-based de-duplication computes exactly the
first-seen-order de-duplication of the spec. -/
lemma dedup_eq_spec {α : Type} [DecidableEq α] (l : List α) :
    dedup l = dedupFirstSeenSpec l := by
  rw [dedup, dedupAux_eq_filter]
  simp

lemma dedupFirstSeenSpec_nodup {α : Type} [DecidableEq α] (l : List α) :
    (dedupFirstSeenSpec l).Nodup := by
  induction l with
  | nil => simp [dedupFirstSeenSpec]
  | cons a l ih =>
    simp only [dedupFirstSeenSpec, List.nodup_cons]
    constructor
    · intro hmem
      have hcond := List.of_mem_filter (p := fun x => decide (x ≠ a)) hmem
      simp at hcond
    · exact List.Nodup.filter _ ih

lemma dedupAux_head? {α : Type} [DecidableEq α] (l acc : List α) (h : acc ≠ []) :
    (dedupAux acc l).head? = acc.head? := by
  induction l generalizing acc with
  | nil => rfl
  | cons a l ih =>
    simp only [dedupAux]
    by_cases hmem : a ∈ acc
    · rw [if_pos hmem]; exact ih acc h
    · rw [if_neg hmem, ih (acc ++ [a]) (by simp)]
      cases acc with
      | nil => exact absurd rfl h
      | cons b bs => rfl

/-- De-duplication never changes the first element of the list. -/
lemma dedup_head? {α : Type} [DecidableEq α] (l : List α) :
    (dedup l).head? = l.head? := by
  cases l with
  | nil => rfl
  | cons a l =>
    have h1 : dedup (a :: l) = dedupAux [a] l := by
      simp [dedup, dedupAux]
    rw [h1, dedupAux_head? l [a] (by simp)]
    rfl

/-- C2: the resolver reverse-resolves the candidate, forward-resolves the
hostname in the IPv6 family, de-duplicates the address list preserving
first-seen order, and returns the first address of the de-duplicated list
when it is non-empty, `None` otherwise; a reverse-lookup failure yields
`None`. The whole pipeline equals the spec-side composition built on the
first-seen de-duplication. -/
theorem c2_resolve_pipeline (env : DnsEnv) (c : Str) :
    resolve_ipv4_to_ipv6 env c =
      (match env.reverse c with
       | .error _ => none
       | .ok hostname =>
         match env.forward hostname with
         | .error _ => none
         | .ok addrs => (dedupFirstSeenSpec addrs).head?) ∧
    ∀ addrs : List Str, dedup addrs = dedupFirstSeenSpec addrs ∧ (dedup addrs).Nodup := by
  constructor
  · cases hr : env.reverse c with
    | error e => simp [resolve_ipv4_to_ipv6, resolveTry, hr]
    | ok hostname =>
      cases hf : env.forward hostname with
      | error e => simp [resolve_ipv4_to_ipv6, resolveTry, hr, hf]
      | ok addrs => simp [resolve_ipv4_to_ipv6, resolveTry, hr, hf, dedup_eq_spec]
  · intro addrs
    exact ⟨dedup_eq_spec addrs, (dedup_eq_spec addrs) ▸ dedupFirstSeenSpec_nodup addrs⟩

/-- C10: when the forward lookup succeeds with a non-empty address list,
the resolver returns the first address of the raw, un-de-duplicated list:
de-duplication never changes which address is returned. -/
theorem c10_first_address_raw (env : DnsEnv) (c hostname : Str) (addrs : List Str)
    (hr : env.reverse c = .ok hostname) (hf : env.forward hostname = .ok addrs)
    (hne : addrs ≠ []) :
    resolve_ipv4_to_ipv6 env c = addrs.head? ∧ (resolve_ipv4_to_ipv6 env c).isSome := by
  have hrw : resolve_ipv4_to_ipv6 env c = (dedup addrs).head? := by
    simp [resolve_ipv4_to_ipv6, resolveTry, hr, hf]
  refine ⟨hrw.trans (dedup_head? addrs), ?_⟩
  rw [hrw, dedup_head?]
  cases addrs with
  | nil => exact absurd rfl hne
  | cons a l => rfl

/-- Concrete DNS oracle used by witness instantiations: one hostname, a
forward list with a duplicate. -/
def envW : DnsEnv where
  reverse := fun _ => .ok ['h']
  forward := fun _ => .ok [['a'], ['b'], ['a']]

/-- Witness for C10: on a concrete oracle whose forward lookup returns
`[a, b, a]`, the resolver returns `a`, the head of the raw list. -/
theorem c10_first_address_raw_witness :
    resolve_ipv4_to_ipv6 envW ['1'] = some ['a'] := by
  have h := c10_first_address_raw envW ['1'] ['h'] [['a'], ['b'], ['a']] rfl rfl (by decide)
  rw [h.1]
  rfl

/-! ## Shared state and the lock-guarded commit (source lines 80-118)

The script guards all three mutations — `proc_cnt += 1`, the conditional
`found_cnt += 1` and `ipv6_results.append(ipv6)` — and the progress print
inside one `with lock:` block. Every interleaving of the worker threads is
therefore a sequence of atomic executions of that block; an execution of
the pool is modelled by folding the block over the completion order of the
tasks, and every externally observable instant (in particular every
progress print, which runs inside the lock) is the state reached after some
prefix of that order. -/

/-- Shared mutable state of `process_ipv4_list`: the processed counter, the
found counter, and the result collection (source lines 82-84). -/
structure RunState where
  proc_cnt : Nat
  found_cnt : Nat
  ipv6_results : List Str
deriving DecidableEq, Repr

/-- The body of `process_single_ip` (source lines 86-101): resolve the
candidate, then atomically increment `proc_cnt` and, when an IPv6 address
was found, increment `found_cnt` and append the address. -/
def process_single_ip (env : DnsEnv) (st : RunState) (ipv4 : Str) : RunState :=
  match resolve_ipv4_to_ipv6 env ipv4 with
  | some ipv6 =>
    { proc_cnt := st.proc_cnt + 1
      found_cnt := st.found_cnt + 1
      ipv6_results := st.ipv6_results ++ [ipv6] }
  | none =>
    { proc_cnt := st.proc_cnt + 1
      found_cnt := st.found_cnt
      ipv6_results := st.ipv6_results }

/-- The concurrent phase of `process_ipv4_list` (source lines 106-117):
the atomic commit of each task, folded over the completion order of the
tasks (a permutation of the candidate list chosen by the scheduler),
starting from zeroed counters and an empty result collection. -/
def run (env : DnsEnv) (order : List Str) : RunState :=
  order.foldl (process_single_ip env) ⟨0, 0, []⟩

lemma run_foldl_state (env : DnsEnv) (order : List Str) (st : RunState) :
    (order.foldl (process_single_ip env) st).proc_cnt = st.proc_cnt + order.length ∧
    (order.foldl (process_single_ip env) st).found_cnt =
      st.found_cnt + order.countP (fun c => (resolve_ipv4_to_ipv6 env c).isSome) ∧
    (order.foldl (process_single_ip env) st).ipv6_results.length =
      st.ipv6_results.length + order.countP (fun c => (resolve_ipv4_to_ipv6 env c).isSome) := by
  induction order generalizing st with
  | nil => simp
  | cons a l ih =>
    simp only [List.foldl_cons, List.countP_cons]
    obtain ⟨ih1, ih2, ih3⟩ := ih (process_single_ip env st a)
    refine ⟨?_, ?_, ?_⟩
    · rw [ih1]
      cases hres : resolve_ipv4_to_ipv6 env a <;>
        simp [process_single_ip, hres] <;> omega
    · rw [ih2]
      cases hres : resolve_ipv4_to_ipv6 env a <;>
        simp [process_single_ip, hres] <;> omega
    · rw [ih3]
      cases hres : resolve_ipv4_to_ipv6 env a <;>
        simp [process_single_ip, hres] <;> omega

/-- Processed counter after a run equals the number of committed tasks. -/
lemma run_proc_cnt (env : DnsEnv) (order : List Str) :
    (run env order).proc_cnt = order.length := by
  simpa using (run_foldl_state env order ⟨0, 0, []⟩).1

/-- Found counter after a run counts the tasks whose resolution succeeded. -/
lemma run_found_cnt (env : DnsEnv) (order : List Str) :
    (run env order).found_cnt =
      order.countP (fun c => (resolve_ipv4_to_ipv6 env c).isSome) := by
  simpa using (run_foldl_state env order ⟨0, 0, []⟩).2.1

/-- The result collection holds one address per successful resolution. -/
lemma run_results_length (env : DnsEnv) (order : List Str) :
    (run env order).ipv6_results.length = (run env order).found_cnt := by
  rw [run_found_cnt]
  simpa using (run_foldl_state env order ⟨0, 0, []⟩).2.2

/-- C3: with every mutation of the shared state inside the single
lock-guarded block, each interleaving of the pool is a sequence of atomic
commits; at every externally observed instant — the state after any
completed prefix of the interleaving, which includes every progress print,
executed inside the lock — the found count never exceeds the processed
count, the processed count equals the number of commits so far (no update
is lost), and the result collection holds exactly one address per found. -/
theorem c3_atomic_commits (env : DnsEnv) (order pre suf : List Str)
    (hsplit : order = pre ++ suf) :
    (run env pre).found_cnt ≤ (run env pre).proc_cnt ∧
    (run env pre).proc_cnt = pre.length ∧
    (run env pre).ipv6_results.length = (run env pre).found_cnt := by
  refine ⟨?_, run_proc_cnt env pre, run_results_length env pre⟩
  rw [run_proc_cnt, run_found_cnt]
  exact List.countP_le_length _

/-- Witness for C3: the invariant instantiated at a two-task prefix of a
concrete three-task interleaving over the concrete oracle. -/
theorem c3_atomic_commits_witness :
    (run envW [['1'], ['2']]).found_cnt ≤ (run envW [['1'], ['2']]).proc_cnt ∧
    (run envW [['1'], ['2']]).proc_cnt = 2 ∧
    (run envW [['1'], ['2']]).ipv6_results.length = (run envW [['1'], ['2']]).found_cnt := by
  have h := c3_atomic_commits envW [['1'], ['2'], ['3']] [['1'], ['2']] [['3']] rfl
  exact ⟨h.1, h.2.1, h.2.2⟩

/-- C5: the resolver never propagates an error to its caller — its
caller-facing result is a plain `Option` — and every resolution failure
collapses to `None`: any exception raised inside the `try` block yields
`None`, as does a successful pipeline whose address list is empty. -/
theorem c5_failures_collapse (env : DnsEnv) (c : Str) :
    (∀ e : SockErr, resolveTry env c = .error e → resolve_ipv4_to_ipv6 env c = none) ∧
    (∀ a : Str, resolve_ipv4_to_ipv6 env c = some a →
      ∃ hostname addrs, env.reverse c = .ok hostname ∧
        env.forward hostname = .ok addrs ∧ addrs ≠ []) := by
  constructor
  · intro e he
    simp [resolve_ipv4_to_ipv6, he]
  · intro a ha
    cases hr : env.reverse c with
    | error e =>
      simp [resolve_ipv4_to_ipv6, resolveTry, hr] at ha
    | ok hostname =>
      cases hf : env.forward hostname with
      | error e =>
        simp [resolve_ipv4_to_ipv6, resolveTry, hr, hf] at ha
      | ok addrs =>
        refine ⟨hostname, addrs, rfl, hf, ?_⟩
        intro hnil
        subst hnil
        simp [resolve_ipv4_to_ipv6, resolveTry, hr, hf, dedup, dedupAux] at ha

/-- Concrete DNS oracle whose reverse lookup always raises. -/
def envFail : DnsEnv where
  reverse := fun _ => .error .herror
  forward := fun _ => .ok []

/-- Witness for C5: on an oracle whose reverse lookup raises, the resolver
returns `None`. -/
theorem c5_failures_collapse_witness :
    resolve_ipv4_to_ipv6 envFail ['1'] = none :=
  (c5_failures_collapse envFail ['1']).1 .herror rfl

/-! ## The orchestration of `process_ipv4_list` (source lines 49-134)

The input file is modelled as either missing (`FileNotFoundError`), failing
with some other read error, or a list of raw lines. The output write either
succeeds or raises an exception. The three `except` blocks at source lines
70-72, 115-116 and 125-127 all evaluate a Python `+` whose left operand is
a `str` and whose right operand is the caught exception object; Python `+`
concatenates only `str` with `str` and raises `TypeError` otherwise, which
is modelled by `pyAdd`. -/

/-- Python values appearing in the handlers' `+` expressions: a string or
an exception object. -/
inductive PyVal
  | str (s : Str)
  | exc (e : Str)
deriving DecidableEq, Repr

/-- Model of Python `+` on these values: `str + str` concatenates; `str`
with an exception object (either side) raises `TypeError`. -/
def pyAdd : PyVal → PyVal → Except Str PyVal
  | .str a, .str b => .ok (.str (a ++ b))
  | _, _ => .error (("TypeError").toList)

/-- The fan-in loop body (source lines 112-116): take one completed
future's outcome; on success do nothing, on failure print
`"Error processing address: " + e`. The print's argument is evaluated
first; if that evaluation raises, the exception leaves the loop uncaught. -/
def fanIn_collect (taskOutcome : Except Str Unit) : Except Str Unit :=
  match taskOutcome with
  | .ok _ => .ok ()
  | .error e =>
    match pyAdd (.str (("Error processing address: ").toList)) (.exc e) with
    | .ok _ => .ok ()
    | .error t => .error t

/-- State of the input file for one invocation. -/
inductive FileInput
  | missing
  | readError (e : Str)
  | content (lines : List Str)
deriving DecidableEq, Repr

/-- Observable outcome of one invocation of `process_ipv4_list`: a clean
early return (file not found / read error handled / empty input / write
error handled), an uncaught exception (`crashed`), or normal completion
with the final shared state. -/
inductive RunResult
  | inputNotFound
  | readAborted
  | emptyInput
  | writeAborted
  | crashed (err : Str)
  | finished (st : RunState)
deriving DecidableEq, Repr

/-- An `except` block of the form `print(expr); return`: evaluating the
print argument may itself raise, turning the handled abort into an
uncaught crash. -/
def exceptPrintThen (printed : Except Str PyVal) (clean : RunResult) : RunResult :=
  match printed with
  | .error t => .crashed t
  | .ok _ => clean

/-- The output-writing loop (source lines 122-124): append each result and
a newline to the file. -/
def writeContent (results : List Str) : Str :=
  results.foldl (fun acc ipv6 => acc ++ ipv6 ++ ['\n']) []

/-- Model of `process_ipv4_list` (source lines 49-134). Parameters beyond
the source's own: `order` is the completion order of the concurrent tasks
(chosen by the scheduler; a permutation of the candidate list), and
`writeErr` is the exception raised by the output write, when any. The
second component of the result is the output file's content; `none` means
the output file was never created, opened or modified. -/
def process_ipv4_list (env : DnsEnv) (input : FileInput) (order : List Str)
    (writeErr : Option Str) : RunResult × Option Str :=
  match input with
  | .missing => (.inputNotFound, none)
  | .readError e =>
    (exceptPrintThen
      (pyAdd (.str (("Error reading input file: ").toList)) (.exc e)) .readAborted,
     none)
  | .content lines =>
    let ipv4_addr := load lines
    if ipv4_addr.isEmpty then (.emptyInput, none)
    else
      let st := run env order
      match writeErr with
      | some e =>
        (exceptPrintThen
          (pyAdd (.str (("Error writing output file: ").toList)) (.exc e)) .writeAborted,
         some [])
      | none => (.finished st, some (writeContent st.ipv6_results))

lemma writeContent_foldl_count (rs : List Str) (acc : Str)
    (h : ∀ r ∈ rs, ('\n') ∉ r) :
    (rs.foldl (fun acc ipv6 => acc ++ ipv6 ++ ['\n']) acc).count '\n' =
      acc.count '\n' + rs.length := by
  induction rs generalizing acc with
  | nil => simp
  | cons r rs ih =>
    simp only [List.foldl_cons, List.length_cons]
    rw [ih _ (fun x hx => h x (List.mem_cons_of_mem r hx))]
    have hr : r.count '\n' = 0 :=
      List.count_eq_zero.mpr (h r (List.mem_cons_self r rs))
    simp [List.count_append, hr]
    omega

/-- When no address contains a newline, the output file has exactly one
line per collected result. -/
lemma writeContent_count (rs : List Str) (h : ∀ r ∈ rs, ('\n') ∉ r) :
    (writeContent rs).count '\n' = rs.length := by
  rw [writeContent, writeContent_foldl_count rs [] h]
  simp

/-- C4: for every run over a non-empty candidate list (every completion
order the scheduler may choose), after all tasks complete the processed
count equals the number of candidates, the found count equals the number
of resolved outcomes, and the output file contains exactly `found` lines,
one resolved IPv6 address per line. -/
theorem c4_run_totals (env : DnsEnv) (lines order : List Str)
    (hperm : order.Perm (load lines)) (hne : load lines ≠ []) :
    process_ipv4_list env (.content lines) order none
      = (.finished (run env order), some (writeContent (run env order).ipv6_results)) ∧
    (run env order).proc_cnt = (load lines).length ∧
    (run env order).found_cnt
      = (load lines).countP (fun c => (resolve_ipv4_to_ipv6 env c).isSome) ∧
    (run env order).ipv6_results.length = (run env order).found_cnt ∧
    ((∀ r ∈ (run env order).ipv6_results, ('\n') ∉ r) →
      (writeContent (run env order).ipv6_results).count '\n'
        = (run env order).found_cnt) := by
  refine ⟨?_, ?_, ?_, run_results_length env order, ?_⟩
  · have hfalse : (load lines).isEmpty = false := by
      cases hload : load lines with
      | nil => exact absurd hload hne
      | cons a l => rfl
    simp [process_ipv4_list, hfalse]
  · rw [run_proc_cnt]
    exact hperm.length_eq
  · rw [run_found_cnt]
    exact hperm.countP_eq _
  · intro h
    rw [writeContent_count _ h, run_results_length]

/-- Witness for C4: a concrete one-candidate input over the concrete
oracle, with the identity completion order. -/
theorem c4_run_totals_witness :
    (run envW [['1']]).proc_cnt = (load [['1']]).length ∧
    (run envW [['1']]).found_cnt
      = (load [['1']]).countP (fun c => (resolve_ipv4_to_ipv6 envW c).isSome) := by
  have h := c4_run_totals envW [['1']] [['1']] (by decide) (by decide)
  exact ⟨h.2.1, h.2.2.1⟩

/-- C6 (divergence evidence): a task failure reaching the fan-in handler
makes the handler itself raise `TypeError` — `"Error processing address: "
+ e` concatenates a `str` with an exception object — so the failure is not
logged-and-contained: the uncaught `TypeError` aborts the fan-in loop and
the batch. -/
theorem c6_fanin_handler_crashes :
    fanIn_collect (Except.error (("boom").toList))
      = Except.error (("TypeError").toList) := rfl

/-- C7 (divergence evidence): an input read error other than
file-not-found, and any output write error, both make their `except`
blocks raise `TypeError` — `"Error reading input file: " + e` and
`"Error writing output file: " + e` concatenate a `str` with an exception
object — so neither abort is graceful: the run dies on an uncaught
`TypeError` instead of the clean handled return. -/
theorem c7_io_error_handlers_crash :
    (process_ipv4_list envW (.readError (("Permission denied").toList)) [] none).1
      = .crashed (("TypeError").toList) ∧
    (process_ipv4_list envW (.content [['1']]) [['1']]
        (some (("No space left on device").toList))).1
      = .crashed (("TypeError").toList) := ⟨rfl, rfl⟩

/-- C8: for a missing input file, and for an input file all of whose lines
are blank or comments, the run aborts before any resolution — to a result
independent of the DNS oracle and the scheduler — and the output file is
never created, opened or modified. -/
theorem c8_no_output_when_missing_or_empty (env : DnsEnv) (order : List Str)
    (w : Option Str) (lines : List Str)
    (hall : ∀ l ∈ lines, keepLine (pyStrip l) = false) :
    process_ipv4_list env .missing order w = (.inputNotFound, none) ∧
    process_ipv4_list env (.content lines) order w = (.emptyInput, none) := by
  constructor
  · rfl
  · have hload : load lines = [] := by
      rw [load_eq_filter]
      apply List.filter_eq_nil_iff.mpr
      intro a ha
      obtain ⟨l, hl, rfl⟩ := List.mem_map.mp ha
      simp [hall l hl]
    simp [process_ipv4_list, hload]

/-- Witness for C8: a concrete empty-after-filtering file (a blank line, a
comment line, a whitespace line) and a missing file, over the concrete
oracle. -/
theorem c8_no_output_witness :
    process_ipv4_list envW .missing [] none = (.inputNotFound, none) ∧
    process_ipv4_list envW (.content [[], ['#', 'x'], [' ']]) [] none
      = (.emptyInput, none) := by
  have h := c8_no_output_when_missing_or_empty envW [] none
    [[], ['#', 'x'], [' ']] (by decide)
  exact ⟨h.1, h.2⟩

/-- C9: whenever the statistics line (and its `found_cnt / proc_cnt`
division) is reached — that is, whenever the invocation finishes normally —
the processed count is at least one, because the empty-input early return
aborts the run before any task is dispatched when there are zero
candidates. -/
theorem c9_success_rate_guarded (env : DnsEnv) (lines order : List Str)
    (w : Option Str) (st : RunState)
    (hperm : order.Perm (load lines))
    (hfin : (process_ipv4_list env (.content lines) order w).1 = .finished st) :
    1 ≤ st.proc_cnt := by
  cases hload : (load lines).isEmpty with
  | true =>
    simp [process_ipv4_list, hload] at hfin
  | false =>
    have hne : load lines ≠ [] := by
      intro hnil
      rw [hnil] at hload
      exact absurd hload (by simp)
    cases w with
    | some e =>
      simp [process_ipv4_list, hload, exceptPrintThen, pyAdd] at hfin
    | none =>
      have hst : st = run env order := by
        simp [process_ipv4_list, hload] at hfin
        exact hfin.symm
      rw [hst, run_proc_cnt, hperm.length_eq]
      exact List.length_pos.mpr hne

/-- Witness for C9: the concrete one-candidate run finishes with a
processed count of at least one. -/
theorem c9_success_rate_guarded_witness : 1 ≤ (run envW [['1']]).proc_cnt :=
  c9_success_rate_guarded envW [['1']] [['1']] none (run envW [['1']])
    (by decide) rfl
